import Mathlib

/-!
Verification of the cygnus-backend-api core against its specification.

The development shallowly embeds the TypeScript sources:
* `src/integrations/bgh/client.ts` — the vendor protocol client
  (value decoding, device parsing, device-status lookup, login lifecycle);
* `src/src/services/bghService.ts` — the service layer and its
  `normaliseError` classification;
* the command orchestrator module (`matchesExpected`, `pollForStatus`,
  `runJob`, `processQueue`, `enqueueCommand`);
* `src/src/services/eventStream.ts` — the SSE broadcaster.

JavaScript numbers are modelled as `Rat`; `NaN` is modelled explicitly as
`Option Rat = none` where the code can observe it.  A raw JSON value that
reaches the decoder is modelled by `JsVal`: a number (possibly `NaN`), a
string (carried as the result of the JavaScript `Number(...)` coercion on
it, `none` meaning the coercion yields `NaN`), or anything else
(`undefined`, `null`, booleans, objects), which the decoder skips after
its `typeof` checks.
-/

/-- A raw JSON value as observed by the decoder in `client.ts`.
`num none` is the number `NaN`; `str c` is a string whose `Number(...)`
coercion is `c` (`none` for strings that coerce to `NaN`); `other` is any
non-number non-string value (`undefined`, `null`, boolean, object). -/
inductive JsVal : Type
  | num (value : Option Rat)
  | str (coercion : Option Rat)
  | other
  deriving DecidableEq, Repr

/-- JavaScript strict equality of a raw value against a number literal,
as in `item.ValueType === valueType`: true only when the value is a
non-`NaN` number equal to the literal. -/
def jsEqNum (v : JsVal) (q : Rat) : Bool :=
  match v with
  | .num (some x) => x == q
  | _ => false

/-- The result of the decoder body that guards with
`typeof v === "number" || typeof v === "string"` and then applies
`Number(v)` with an `isNaN` test: `some q` when a usable number `q`
comes out, `none` otherwise. -/
def jsCoerce : JsVal → Option Rat
  | .num o => o
  | .str o => o
  | .other => none

/-- One `(ValueType, Value)` pair of a value-group
(`RawEndpointValue` in `client.ts`; both fields arrive from the wire
and may hold anything). -/
structure RawEndpointValue : Type where
  valueType : JsVal
  value : JsVal
  deriving DecidableEq, Repr

/-- Constant `VALUE_TYPE_TEMPERATURE` from `client.ts`. -/
def VALUE_TYPE_TEMPERATURE : Rat := 13
/-- Constant `VALUE_TYPE_MODE` from `client.ts`. -/
def VALUE_TYPE_MODE : Rat := 14
/-- Constant `VALUE_TYPE_FAN_SPEED` from `client.ts`. -/
def VALUE_TYPE_FAN_SPEED : Rat := 15
/-- Constant `VALUE_TYPE_TARGET_TEMPERATURE` from `client.ts`. -/
def VALUE_TYPE_TARGET_TEMPERATURE : Rat := 20

/-- The nested `findValue` of `BGHClient.parseRawValues`: the `Value` of
the first pair whose `ValueType` strictly equals the requested type;
`none` when no pair matches (`undefined` in the source). -/
def findValue (values : List RawEndpointValue) (valueType : Rat) : Option JsVal :=
  match values.find? (fun item => jsEqNum item.valueType valueType) with
  | some item => some item.value
  | none => none

/-- The record returned by `BGHClient.parseRawValues`. -/
structure ParsedValues : Type where
  temperature : Option Rat
  targetTemperature : Option Rat
  fanSpeed : Option Rat
  modeId : Option Rat
  deriving DecidableEq, Repr

/-- Embedding of `BGHClient.parseRawValues`: decodes the four typed fields from a
value-group.  Each field takes the first pair of its value-type; a value
that fails the `typeof` guard or coerces to `NaN` leaves the field
`null`; ambient temperature has the `<= -50` sentinel, target
temperature the `255 -> 20` sentinel. -/
def parseRawValues (values : List RawEndpointValue) : ParsedValues :=
  { temperature :=
      match findValue values VALUE_TYPE_TEMPERATURE with
      | some (.num (some t)) | some (.str (some t)) =>
          if t ≤ -50 then none else some t
      | _ => none
    targetTemperature :=
      match findValue values VALUE_TYPE_TARGET_TEMPERATURE with
      | some (.num (some t)) | some (.str (some t)) =>
          some (if t = 255 then 20 else t)
      | _ => none
    fanSpeed :=
      match findValue values VALUE_TYPE_FAN_SPEED with
      | some (.num (some t)) | some (.str (some t)) => some t
      | _ => none
    modeId :=
      match findValue values VALUE_TYPE_MODE with
      | some (.num (some t)) | some (.str (some t)) => some t
      | _ => none }

/-- The raw `Values` field of one endpoint value-group
(`RawEndpointValueGroup` in `client.ts`).  `values = none` models a
`Values` field that is absent or not an array; `values = some xs`
models an array whose elements are objects (`some pair`) or non-object
entries (`none`) that `normaliseValues` filters out. -/
structure RawEndpointValueGroup : Type where
  values : Option (List (Option RawEndpointValue))
  deriving DecidableEq, Repr

/-- Embedding of `BGHClient.normaliseValues`: yields `[]` when the group is
absent or its `Values` is not an array, and otherwise keeps exactly the
object entries of the array. -/
def normaliseValues (valuesGroup : Option RawEndpointValueGroup) : List RawEndpointValue :=
  match valuesGroup with
  | none => []
  | some group =>
      match group.values with
      | none => []
      | some items => items.filterMap id

/-- One entry of the raw `Endpoints` array (`RawEndpoint` in `client.ts`).
The wire may put anything in `EndpointID`, hence `JsVal`; `description`
models the optional `Description` string. -/
structure RawEndpoint : Type where
  endpointID : JsVal
  description : Option String
  deriving DecidableEq, Repr

/-- One entry of the raw `Devices` metadata array (`RawDevice` in
`client.ts`). -/
structure RawDevice : Type where
  deviceModel : Option String
  address : Option String
  deriving DecidableEq, Repr

/-- The `DeviceStatus` snapshot class of `client.ts`.  `deviceId` is the
numeric `EndpointID` (`none` modelling `NaN`, which passes the
`typeof === "number"` check). -/
structure DeviceStatus : Type where
  deviceId : Option Rat
  deviceName : String
  model : Option String
  serialNumber : Option String
  temperature : Option Rat
  targetTemperature : Option Rat
  fanSpeed : Option Rat
  modeId : Option Rat
  rawValues : List RawEndpointValue
  rawDevice : Option RawDevice
  endpoint : RawEndpoint
  deriving DecidableEq, Repr

/-- The `DeviceStatusMap` object of `client.ts`: an association of numeric
keys to snapshots.  A JavaScript object keys numbers by their string
form, under which two equal numbers (and any two `NaN`s) collide, so the
key type is `Option Rat` with `none` for `NaN`. -/
def DeviceStatusMap : Type := List (Option Rat × DeviceStatus)

/-- JavaScript object assignment `devices[key] = value`: replaces the
value of an existing key in place, otherwise appends the new key. -/
def upsert (devices : DeviceStatusMap) (key : Option Rat) (value : DeviceStatus) :
    DeviceStatusMap :=
  match devices with
  | [] => [(key, value)]
  | (k, v) :: rest =>
      if k = key then (key, value) :: rest else (k, v) :: upsert rest key value

/-- JavaScript object read `devices[key]`: `none` is `undefined`. -/
def mapLookup (devices : DeviceStatusMap) (key : Option Rat) : Option DeviceStatus :=
  match devices with
  | [] => none
  | (k, v) :: rest => if k = key then some v else mapLookup rest key

/-- The snapshot built by the body of the `parseDevices` loop for an
endpoint with numeric id `endpointId`, from the positionally paired
value-group and metadata entry. -/
def deviceFromParts (endpointId : Option Rat) (ep : RawEndpoint)
    (valuesGroup : Option RawEndpointValueGroup) (metadata : Option RawDevice) :
    DeviceStatus :=
  let values := normaliseValues valuesGroup
  let parsed := parseRawValues values
  { deviceId := endpointId
    deviceName := ep.description.getD ""
    model := metadata.bind RawDevice.deviceModel
    serialNumber := metadata.bind RawDevice.address
    temperature := parsed.temperature
    targetTemperature := parsed.targetTemperature
    fanSpeed := parsed.fanSpeed
    modeId := parsed.modeId
    rawValues := values
    rawDevice := metadata
    endpoint := ep }

/-- The loop of `BGHClient.parseDevices`: walks the three parallel arrays
positionally (the head of each list is the entry at the current index;
an exhausted list keeps yielding `undefined`, i.e. `none`), skips falsy
endpoints and endpoints whose `EndpointID` fails the
`typeof === "number"` check, and assigns every other snapshot into the
accumulated object. -/
def parseDevicesGo : List (Option RawEndpoint) → List (Option RawEndpointValueGroup) →
    List (Option RawDevice) → DeviceStatusMap → DeviceStatusMap
  | [], _, _, devices => devices
  | endpoint :: endpoints, valueGroups, metas, devices =>
      let valuesGroup : Option RawEndpointValueGroup := valueGroups.head?.join
      let metadata : Option RawDevice := metas.head?.join
      match endpoint with
      | none => parseDevicesGo endpoints valueGroups.tail metas.tail devices
      | some ep =>
          match ep.endpointID with
          | .num endpointId =>
              parseDevicesGo endpoints valueGroups.tail metas.tail
                (upsert devices endpointId (deviceFromParts endpointId ep valuesGroup metadata))
          | _ => parseDevicesGo endpoints valueGroups.tail metas.tail devices

/-- Embedding of `BGHClient.parseDevices` (the pure part of `getDevices`):
builds the id-to-snapshot object from the `Endpoints`, `EndpointValues`
and `Devices` arrays of one data packet. -/
def parseDevices (endpoints : List (Option RawEndpoint))
    (endpointValues : List (Option RawEndpointValueGroup))
    (devicesMeta : List (Option RawDevice)) : DeviceStatusMap :=
  parseDevicesGo endpoints endpointValues devicesMeta []

/-- The numeric key contributed by one entry of the `Endpoints` array:
`some` exactly when `parseDevices` does not skip the entry. -/
def entryNumericId (endpoint : Option RawEndpoint) : Option (Option Rat) :=
  match endpoint with
  | some ep =>
      match ep.endpointID with
      | .num endpointId => some endpointId
      | _ => none
  | none => none

/-- The numeric `EndpointID`s of the endpoint entries, in order: exactly
the entries that `parseDevices` does not skip. -/
def numericEndpointIds (endpoints : List (Option RawEndpoint)) : List (Option Rat) :=
  endpoints.filterMap entryNumericId

/-- Decides whether the character list `needle` is an initial segment of
`hay`. -/
def isLeadingSeg : List Char → List Char → Bool
  | [], _ => true
  | _ :: _, [] => false
  | a :: as, b :: bs => a == b && isLeadingSeg as bs

/-- Decides whether `needle` occurs contiguously inside `hay`. -/
def containsSeg : List Char → List Char → Bool
  | needle, [] => isLeadingSeg needle []
  | needle, c :: rest => isLeadingSeg needle (c :: rest) || containsSeg needle rest

/-- ASCII lower-casing of one character (the alphabet relevant to the
`/not found/i` pattern). -/
def lowerChar (c : Char) : Char :=
  if 65 ≤ c.toNat ∧ c.toNat ≤ 90 then Char.ofNat (c.toNat + 32) else c

/-- The test `/not found/i.test(message)` of `normaliseError`:
a case-insensitive search for the substring `not found`. -/
def hasNotFoundText (message : String) : Bool :=
  containsSeg ("not found".toList.map lowerChar) (message.toList.map lowerChar)

/-- The `BghServiceErrorCode` union of `bghService.ts`. -/
inductive BghServiceErrorCode : Type
  | CONFIGURATION_ERROR
  | AUTHENTICATION_ERROR
  | UPSTREAM_ERROR
  | NOT_FOUND
  | UNEXPECTED_ERROR
  deriving DecidableEq, Repr

/-- The `BGHServiceError` class of `bghService.ts` (message and code;
the `cause` field carries no logic). -/
structure BGHServiceError : Type where
  message : String
  code : BghServiceErrorCode
  deriving DecidableEq, Repr

/-- A thrown JavaScript value as discriminated by `normaliseError`.
`bghAuthenticationError` extends `bghApiError` in the source, but the
`instanceof` chain tests the subclass first, so disjoint constructors in
source-test order are faithful.  `otherError` is any other `Error`;
`nonError` is a thrown non-`Error` value. -/
inductive JsError : Type
  | bghServiceError (message : String) (code : BghServiceErrorCode)
  | bghAuthenticationError (message : String)
  | bghApiError (message : String)
  | otherError (message : String)
  | nonError
  deriving DecidableEq, Repr

/-- Embedding of `normaliseError` from `bghService.ts`: the `instanceof`
chain in source order — `BGHServiceError` passes through,
`BGHAuthenticationError` maps to `AUTHENTICATION_ERROR`, `BGHApiError`
maps to `UPSTREAM_ERROR`, any other `Error` whose message matches
`/not found/i` maps to `NOT_FOUND`, and everything else to
`UNEXPECTED_ERROR`. -/
def normaliseError (context : String) (error : JsError) : BGHServiceError :=
  match error with
  | .bghServiceError message code => ⟨message, code⟩
  | .bghAuthenticationError _ =>
      ⟨"BGH authentication failed while " ++ context ++ ".", .AUTHENTICATION_ERROR⟩
  | .bghApiError message =>
      ⟨"BGH API request failed while " ++ context ++ ". " ++ message, .UPSTREAM_ERROR⟩
  | .otherError message =>
      if hasNotFoundText message then ⟨message, .NOT_FOUND⟩
      else ⟨"Unexpected error occurred while " ++ context ++ ".", .UNEXPECTED_ERROR⟩
  | .nonError => ⟨"Unexpected error occurred while " ++ context ++ ".", .UNEXPECTED_ERROR⟩

/-- Embedding of `BGHClient.getDeviceStatus` applied to the result
`devices` of `getDevices`: selects one entry, throwing a plain
`BGHApiError` whose message names the missing device when the id is
absent. -/
def clientGetDeviceStatus (devices : DeviceStatusMap) (homeId deviceId : Rat) :
    Except JsError DeviceStatus :=
  match mapLookup devices (some deviceId) with
  | some device => .ok device
  | none =>
      .error (.bghApiError
        ("Device " ++ toString deviceId ++ " not found for home " ++ toString homeId))

/-- Embedding of the service-layer `getDeviceStatus` of `bghService.ts`
for a client whose `getDevices` returned `devices`: any error thrown by
the client call is passed through `normaliseError` with the
operation context string. -/
def serviceGetDeviceStatus (devices : DeviceStatusMap) (homeId deviceId : Rat) :
    Except BGHServiceError DeviceStatus :=
  match clientGetDeviceStatus devices homeId deviceId with
  | .ok device => .ok device
  | .error e =>
      .error (normaliseError
        ("retrieving device " ++ toString deviceId ++ " status for home " ++ toString homeId) e)

/-- The error code carried by a failed service result (`none` on
success). -/
def serviceErrorCode (result : Except BGHServiceError DeviceStatus) :
    Option BghServiceErrorCode :=
  match result with
  | .error e => some e.code
  | .ok _ => none

/-- Lookup in one of the fixed vendor-code tables
(`HVAC_MODES[key]` / `FAN_MODES[key]`): `none` is `undefined`. -/
def tableLookup (table : List (String × Rat)) (key : String) : Option Rat :=
  match table with
  | [] => none
  | (k, v) :: rest => if k = key then some v else tableLookup rest key

/-- The `HVAC_MODES` table of `client.ts`. -/
def HVAC_MODES : List (String × Rat) :=
  [("off", 0), ("cool", 1), ("heat", 2), ("dry", 3),
   ("fan_only", 4), ("auto", 254), ("no_change", 255)]

/-- The `FAN_MODES` table of `client.ts`. -/
def FAN_MODES : List (String × Rat) :=
  [("low", 1), ("mid", 2), ("high", 3), ("auto", 254), ("no_change", 255)]

/-- The `CommandPayload` of the orchestrator: mode key, requested target
temperature, optional fan key and flags. -/
structure CommandPayload : Type where
  mode : String
  targetTemperature : Rat
  fan : Option String
  flags : Option Rat
  deriving DecidableEq, Repr

/-- JavaScript `Math.round`: rounds to the nearest integer, halves
toward positive infinity; on a rational `q` this is the floor of
`q + 1/2`, computed here on numerator and denominator directly. -/
def jsRound (q : Rat) : Int := (2 * q.num + (q.den : Int)).fdiv (2 * (q.den : Int))


/-- The `matchesExpected` predicate of the orchestrator: trivial match
for mode/fan when the payload maps to no defined vendor code, strict
equality against the snapshot otherwise; target temperature compares
rounded values and never matches a missing snapshot value. -/
def matchesExpected (device : DeviceStatus) (payload : CommandPayload) : Bool :=
  let expectedMode := tableLookup HVAC_MODES payload.mode
  let expectedFan := payload.fan.bind (tableLookup FAN_MODES)
  let modeMatches :=
    match expectedMode with
    | none => true
    | some m => device.modeId == some m
  let fanMatches :=
    match expectedFan with
    | none => true
    | some f => device.fanSpeed == some f
  let temperatureMatches :=
    match device.targetTemperature with
    | none => false
    | some t => jsRound t == jsRound payload.targetTemperature
  modeMatches && fanMatches && temperatureMatches

/-- Constant `MAX_ATTEMPTS` of the orchestrator. -/
def MAX_ATTEMPTS : Nat := 6

/-- Constant `POLL_DELAY_MS` of the orchestrator. -/
def POLL_DELAY_MS : Nat := 750

/-- One vendor call issued by the orchestrator while running a job. -/
inductive VendorCall : Type
  | setModeCall
  | statusCall (attempt : Nat)
  deriving DecidableEq, Repr

/-- The result of `pollForStatus`: a device and the attempt count, or
the dedicated thrown status-unavailable error. -/
inductive PollResult : Type
  | ok (device : DeviceStatus) (attempts : Nat)
  | statusUnavailable
  deriving DecidableEq, Repr

/-- The value returned (or thrown) by `pollForStatus` after the loop
exhausts all attempts with last-seen device `lastDevice`. -/
def lastResult (lastDevice : Option DeviceStatus) : PollResult :=
  match lastDevice with
  | some device => .ok device MAX_ATTEMPTS
  | none => .statusUnavailable

/-- The loop of `pollForStatus`.  `fetch a` is the outcome of the
`getDeviceStatus` call at attempt `a` (`none` when it throws; the
source catches and logs that).  Returns the result together with the
trace of status calls issued. -/
def pollLoop (fetch : Nat → Option DeviceStatus) (payload : CommandPayload)
    (attempt : Nat) (lastDevice : Option DeviceStatus) : PollResult × List VendorCall :=
  if _hle : attempt ≤ MAX_ATTEMPTS then
    match fetch attempt with
    | some device =>
        if matchesExpected device payload then
          (.ok device attempt, [.statusCall attempt])
        else
          let r := pollLoop fetch payload (attempt + 1) (some device)
          (r.1, .statusCall attempt :: r.2)
    | none =>
        let r := pollLoop fetch payload (attempt + 1) lastDevice
        (r.1, .statusCall attempt :: r.2)
  else
    (lastResult lastDevice, [])
termination_by MAX_ATTEMPTS + 1 - attempt
decreasing_by
  all_goals simp_wf
  all_goals omega

/-- Embedding of `pollForStatus`: attempts start at 1 with no last-seen
device. -/
def pollForStatus (fetch : Nat → Option DeviceStatus) (payload : CommandPayload) :
    PollResult × List VendorCall :=
  pollLoop fetch payload 1 none

/-- The last snapshot obtained across the six status fetches: the last
defined value of `fetch` on attempts 1 to `MAX_ATTEMPTS`. -/
def lastSnapshot (fetch : Nat → Option DeviceStatus) : Option DeviceStatus :=
  ((List.range' 1 MAX_ATTEMPTS).filterMap fetch).getLast?

/-- The error carried by a failed job outcome. -/
inductive JobError : Type
  | setModeFailed
  | statusUnavailable
  deriving DecidableEq, Repr

/-- The `CommandResult` union of the orchestrator. -/
inductive CommandResult : Type
  | completed (device : DeviceStatus) (attempts : Nat)
  | failed (error : JobError) (attempts : Nat)
  deriving DecidableEq, Repr

/-- Embedding of `runJob`: calls `setDeviceMode` (outcome `setModeOk`;
`false` models a throw), then polls; any throw — from `setDeviceMode`
or the status-unavailable throw of `pollForStatus` — is caught and
published as a failed outcome with zero attempts.  Returns the outcome
together with the trace of vendor calls issued. -/
def runJob (setModeOk : Bool) (fetch : Nat → Option DeviceStatus)
    (payload : CommandPayload) : CommandResult × List VendorCall :=
  if setModeOk then
    match pollForStatus fetch payload with
    | (.ok device attempts, trace) => (.completed device attempts, .setModeCall :: trace)
    | (.statusUnavailable, trace) => (.failed .statusUnavailable 0, .setModeCall :: trace)
  else
    (.failed .setModeFailed 0, [.setModeCall])

/-- The orchestrator state owned by the command queue module: the FIFO
queue (job ids) and the worker flag `isProcessing`. -/
structure QueueState : Type where
  queue : List Nat
  isProcessing : Bool
  deriving DecidableEq, Repr

/-- Embedding of `enqueueCommand` together with the synchronous part of
the `void processQueue()` call it makes before returning.  The job is
pushed; when a worker is already draining (`isProcessing`),
`processQueue` returns at once; otherwise `processQueue` sets the flag,
shifts the first job off the queue and only then suspends at
`await runJob(job)`, after which `enqueueCommand` resumes and reads
`queue.length` as the returned position.  Returns the state at the
suspension point and the `position` value returned to the caller. -/
def enqueueCommand (s : QueueState) (jobId : Nat) : QueueState × Nat :=
  let pushed := s.queue ++ [jobId]
  if s.isProcessing then
    ({ queue := pushed, isProcessing := true }, pushed.length)
  else
    match pushed with
    | [] => ({ queue := [], isProcessing := true }, 0)
    | _ :: rest => ({ queue := rest, isProcessing := true }, rest.length)

/-- One HTTP request issued by the vendor client. -/
inductive HttpRequest : Type
  | loginPost
  | apiPost (endpoint : String)
  deriving DecidableEq, Repr

/-- The requests issued synchronously by `BGHClient.login`: its body
posts the credentials to `LOGIN_ENDPOINT` before its first suspension
point. -/
def loginTrace : List HttpRequest := [.loginPost]

/-- The requests issued by the `BGHClient` constructor: line 119 of
`client.ts` assigns `this.tokenPromise = this.login(email, password)`,
so the login post happens during construction. -/
def constructorTrace : List HttpRequest := loginTrace

/-- The requests issued by `BGHClient.ensureToken`: it awaits the
already-created `tokenPromise` and issues none of its own — in
particular it never calls `login`. -/
def ensureTokenTrace : List HttpRequest := []

/-- The requests issued by `BGHClient.post` for one API endpoint:
`ensureToken` first, then the single API post. -/
def postTrace (endpoint : String) : List HttpRequest :=
  ensureTokenTrace ++ [.apiPost endpoint]

/-- The full request trace of one client instance across an arbitrary
sequence of operations (each operation given by the API endpoint it
posts to via `BGHClient.post`): construction first, then the
operations in order. -/
def clientTrace (ops : List String) : List HttpRequest :=
  constructorTrace ++ ops.flatMap postTrace

/-- The number of login requests in a trace. -/
def countLogins (trace : List HttpRequest) : Nat :=
  trace.countP (fun r => r = .loginPost)

/-- One registered SSE subscriber (`SSEClient` in `eventStream.ts`):
its id, whether writing this event to its stream throws, and whether
closing its stream throws. -/
structure SSEClient : Type where
  id : Nat
  writeFails : Bool
  endFails : Bool
  deriving DecidableEq, Repr

/-- The broadcaster state: the registry in insertion order, plus the
record of heartbeat timers cleared and stream closes attempted. -/
structure StreamState : Type where
  clients : List SSEClient
  cancelledHeartbeats : List Nat
  endedStreams : List Nat
  deriving DecidableEq, Repr

/-- Embedding of `removeClient`: a no-op for an unknown id; otherwise
clears the heartbeat, deletes the registry entry, and attempts
`res.end()` with errors ignored (`endedStreams` records the attempt
whether or not `endFails`). -/
def removeClient (s : StreamState) (clientId : Nat) : StreamState :=
  match s.clients.find? (fun c => c.id == clientId) with
  | none => s
  | some _ =>
      { clients := s.clients.eraseP (fun c => c.id == clientId)
        cancelledHeartbeats := s.cancelledHeartbeats ++ [clientId]
        endedStreams := s.endedStreams ++ [clientId] }

/-- The iteration of `broadcastEvent` over the subscribers present when
the publish started (deleting only the current entry during a JavaScript
`Map` iteration never skips the remaining entries, so the original
registry list is the iteration order).  A failing write removes that
subscriber via `removeClient`; a successful one appends its id to the
delivered list. -/
def broadcastGo : StreamState → List SSEClient → List Nat → StreamState × List Nat
  | s, [], received => (s, received)
  | s, c :: rest, received =>
      if c.writeFails then broadcastGo (removeClient s c.id) rest received
      else broadcastGo s rest (received ++ [c.id])

/-- Embedding of `broadcastEvent`: writes the event to every registered
subscriber, returning the new state and the ids that received the
event.  Both the write failure and the close failure paths are handled
inside (`try`/`catch` in the source), so the function is total: publish
never raises to its caller. -/
def broadcastEvent (s : StreamState) : StreamState × List Nat :=
  broadcastGo s s.clients []

/-- Embedding of `connectedClients` (`count()` in the specification):
the registry size. -/
def connectedClients (s : StreamState) : Nat := s.clients.length

/-- The snapshots obtained by the status fetches from attempt `attempt`
to `MAX_ATTEMPTS`, in order. -/
def obtainedFrom (fetch : Nat → Option DeviceStatus) (attempt : Nat) : List DeviceStatus :=
  (List.range' attempt (MAX_ATTEMPTS + 1 - attempt)).filterMap fetch

/-- The last element of `xs` when it has one, else the fallback
`lastDevice`. -/
def lastOr (lastDevice : Option DeviceStatus) (xs : List DeviceStatus) : Option DeviceStatus :=
  match xs.getLast? with
  | some d => some d
  | none => lastDevice

/-- A concrete payload used by the concrete-input theorems:
mode `cool`, target 21, no fan, no flags. -/
def demoPayload : CommandPayload := ⟨"cool", 21, none, none⟩

/-- A concrete snapshot that matches `demoPayload` (mode code 1,
target temperature 21). -/
def demoMatching : DeviceStatus :=
  ⟨some 7, "AC", none, none, some 24, some 21, some 254, some 1, [], none,
   ⟨.num (some 7), some "AC"⟩⟩

/-- A concrete snapshot that does not match `demoPayload` (its target
temperature is missing, which never matches). -/
def demoStale : DeviceStatus :=
  ⟨some 7, "AC", none, none, none, none, none, some 1, [], none,
   ⟨.num (some 7), some "AC"⟩⟩

/-- A concrete broadcaster state with three subscribers of which the
second fails on write. -/
def demoStream : StreamState :=
  ⟨[⟨1, false, false⟩, ⟨2, true, false⟩, ⟨3, false, false⟩], [], []⟩

theorem jsRound_eq_floor (q : Rat) : jsRound q = ⌊q + (1 : ℚ) / 2⌋ := by
  have hden : ((q.den : ℚ)) ≠ 0 := by
    exact_mod_cast q.den_nz
  have hq : (q.num : ℚ) = q * (q.den : ℚ) :=
    (div_eq_iff hden).mp (Rat.num_div_den q)
  have h2 : ((2 * q.den : ℕ) : ℚ) ≠ 0 := by
    exact_mod_cast Nat.mul_ne_zero (by norm_num) q.den_nz
  have h1 : q + (1 : ℚ) / 2 =
      ((2 * q.num + (q.den : Int) : Int) : ℚ) / ((2 * q.den : ℕ) : ℚ) := by
    rw [eq_div_iff h2]
    push_cast
    rw [hq]
    ring
  have h3 : ((2 * q.den : ℕ) : ℤ) = 2 * (q.den : ℤ) := by
    push_cast
    ring
  rw [h1, Rat.floor_intCast_div_natCast, h3, jsRound,
    Int.fdiv_eq_ediv _ (by positivity)]

theorem findValue_eq_none (values : List RawEndpointValue) (t : Rat)
    (h : ∀ item ∈ values, jsEqNum item.valueType t = false) :
    findValue values t = none := by
  have hfind : values.find? (fun item => jsEqNum item.valueType t) = none :=
    List.find?_eq_none.mpr (fun x hx => by simp [h x hx])
  simp [findValue, hfind]

theorem findValue_append_first (values : List RawEndpointValue) (t : Rat)
    (pre post : List RawEndpointValue) (item : RawEndpointValue)
    (hsplit : values = pre ++ item :: post)
    (hpre : ∀ it ∈ pre, jsEqNum it.valueType t = false)
    (hitem : jsEqNum item.valueType t = true) :
    findValue values t = some item.value := by
  subst hsplit
  induction pre with
  | nil => simp [findValue, List.find?_cons, hitem]
  | cons a as ih =>
      have ha : jsEqNum a.valueType t = false := hpre a (List.mem_cons_self a as)
      have has : ∀ it ∈ as, jsEqNum it.valueType t = false :=
        fun it hit => hpre it (List.mem_cons_of_mem a hit)
      simpa [findValue, List.find?_cons, ha] using ih has

/-- C2: the decoded device fields follow the reference decode — each of
ambient temperature (type 13), target temperature (type 20), fan speed
(type 15) and mode (type 14) is taken from the first pair of its
value-type; absence of the type yields null; an ambient value at most
-50 decodes to null and any value above -50 decodes unchanged; a target
value of 255 decodes to 20 and any other numeric value decodes
unchanged. -/
theorem C2_parseRawValues_reference_decode (values : List RawEndpointValue) :
    ((∀ item ∈ values, jsEqNum item.valueType VALUE_TYPE_TEMPERATURE = false) →
        (parseRawValues values).temperature = none)
  ∧ (∀ q : Rat, findValue values VALUE_TYPE_TEMPERATURE = some (.num (some q)) →
        (q ≤ -50 → (parseRawValues values).temperature = none)
      ∧ (-50 < q → (parseRawValues values).temperature = some q))
  ∧ ((∀ item ∈ values, jsEqNum item.valueType VALUE_TYPE_TARGET_TEMPERATURE = false) →
        (parseRawValues values).targetTemperature = none)
  ∧ (∀ q : Rat, findValue values VALUE_TYPE_TARGET_TEMPERATURE = some (.num (some q)) →
        (q = 255 → (parseRawValues values).targetTemperature = some 20)
      ∧ (q ≠ 255 → (parseRawValues values).targetTemperature = some q))
  ∧ ((∀ item ∈ values, jsEqNum item.valueType VALUE_TYPE_FAN_SPEED = false) →
        (parseRawValues values).fanSpeed = none)
  ∧ (∀ q : Rat, findValue values VALUE_TYPE_FAN_SPEED = some (.num (some q)) →
        (parseRawValues values).fanSpeed = some q)
  ∧ ((∀ item ∈ values, jsEqNum item.valueType VALUE_TYPE_MODE = false) →
        (parseRawValues values).modeId = none)
  ∧ (∀ q : Rat, findValue values VALUE_TYPE_MODE = some (.num (some q)) →
        (parseRawValues values).modeId = some q)
  ∧ (∀ (t : Rat) (pre post : List RawEndpointValue) (item : RawEndpointValue),
        values = pre ++ item :: post →
        (∀ it ∈ pre, jsEqNum it.valueType t = false) →
        jsEqNum item.valueType t = true →
        findValue values t = some item.value) := by
  refine ⟨?_, ?_, ?_, ?_, ?_, ?_, ?_, ?_, ?_⟩
  · intro h
    simp [parseRawValues, findValue_eq_none values _ h]
  · intro q hf
    constructor <;> intro hq
    · simp [parseRawValues, hf, hq]
    · simp [parseRawValues, hf, not_le.mpr hq]
  · intro h
    simp [parseRawValues, findValue_eq_none values _ h]
  · intro q hf
    constructor <;> intro hq
    · simp [parseRawValues, hf, hq]
    · simp [parseRawValues, hf, hq]
  · intro h
    simp [parseRawValues, findValue_eq_none values _ h]
  · intro q hf
    simp [parseRawValues, hf]
  · intro h
    simp [parseRawValues, findValue_eq_none values _ h]
  · intro q hf
    simp [parseRawValues, hf]
  · intro t pre post item hsplit hpre hitem
    exact findValue_append_first values t pre post item hsplit hpre hitem

theorem C2_parseRawValues_reference_decode_witness :
    ((parseRawValues [⟨.num (some 13), .num (some (-60))⟩,
        ⟨.num (some 20), .num (some 255)⟩,
        ⟨.num (some 15), .num (some 2)⟩]).temperature = none)
  ∧ ((parseRawValues [⟨.num (some 13), .num (some 24)⟩,
        ⟨.num (some 20), .num (some 21)⟩]).temperature = some 24)
  ∧ ((parseRawValues [⟨.num (some 13), .num (some (-60))⟩,
        ⟨.num (some 20), .num (some 255)⟩,
        ⟨.num (some 15), .num (some 2)⟩]).targetTemperature = some 20)
  ∧ ((parseRawValues [⟨.num (some 13), .num (some 24)⟩,
        ⟨.num (some 20), .num (some 21)⟩]).targetTemperature = some 21)
  ∧ ((parseRawValues [⟨.num (some 13), .num (some 24)⟩,
        ⟨.num (some 20), .num (some 21)⟩]).fanSpeed = none)
  ∧ ((parseRawValues [⟨.num (some 13), .num (some (-60))⟩,
        ⟨.num (some 20), .num (some 255)⟩,
        ⟨.num (some 15), .num (some 2)⟩]).fanSpeed = some 2)
  ∧ ((parseRawValues [⟨.num (some 13), .num (some 24)⟩,
        ⟨.num (some 20), .num (some 21)⟩]).modeId = none)
  ∧ (findValue [⟨.num (some 14), .num (some 7)⟩,
        ⟨.num (some 14), .num (some 9)⟩] 14 = some (.num (some 7))) := by
  refine ⟨?_, ?_, ?_, ?_, ?_, ?_, ?_, ?_⟩
  · exact (C2_parseRawValues_reference_decode _).2.1 (-60) (by decide) |>.1 (by decide)
  · exact (C2_parseRawValues_reference_decode _).2.1 24 (by decide) |>.2 (by decide)
  · exact (C2_parseRawValues_reference_decode _).2.2.2.1 255 (by decide) |>.1 rfl
  · exact (C2_parseRawValues_reference_decode _).2.2.2.1 21 (by decide) |>.2 (by decide)
  · exact (C2_parseRawValues_reference_decode _).2.2.2.2.1 (by decide)
  · exact (C2_parseRawValues_reference_decode _).2.2.2.2.2.1 2 (by decide)
  · exact (C2_parseRawValues_reference_decode _).2.2.2.2.2.2.1 (by decide)
  · exact (C2_parseRawValues_reference_decode _).2.2.2.2.2.2.2.2 14 []
      [⟨.num (some 14), .num (some 9)⟩] ⟨.num (some 14), .num (some 7)⟩ rfl
      (by intro it hit; cases hit) (by decide)

/-- C10: value decoding is total on malformed input — when the first
pair of a value-type carries a `Value` that is neither a number nor a
string, or one that coerces to `NaN`, decoding yields null for that
field, for all four fields.  (The embedding of `parseRawValues` is a
total function: the source path contains no `throw`, so decoding never
raises.) -/
theorem C10_decode_total_on_malformed (values : List RawEndpointValue) :
    ∀ v : JsVal, jsCoerce v = none →
      ((findValue values VALUE_TYPE_TEMPERATURE = some v →
          (parseRawValues values).temperature = none)
      ∧ (findValue values VALUE_TYPE_TARGET_TEMPERATURE = some v →
          (parseRawValues values).targetTemperature = none)
      ∧ (findValue values VALUE_TYPE_FAN_SPEED = some v →
          (parseRawValues values).fanSpeed = none)
      ∧ (findValue values VALUE_TYPE_MODE = some v →
          (parseRawValues values).modeId = none)) := by
  intro v hv
  match v, hv with
  | .num none, _ =>
      refine ⟨?_, ?_, ?_, ?_⟩ <;> intro hf <;> simp [parseRawValues, hf]
  | .str none, _ =>
      refine ⟨?_, ?_, ?_, ?_⟩ <;> intro hf <;> simp [parseRawValues, hf]
  | .other, _ =>
      refine ⟨?_, ?_, ?_, ?_⟩ <;> intro hf <;> simp [parseRawValues, hf]

theorem C10_decode_total_on_malformed_witness :
    ((parseRawValues [⟨.num (some 13), .other⟩, ⟨.num (some 20), .str none⟩,
        ⟨.num (some 15), .other⟩, ⟨.num (some 14), .num none⟩]).temperature = none)
  ∧ ((parseRawValues [⟨.num (some 13), .other⟩, ⟨.num (some 20), .str none⟩,
        ⟨.num (some 15), .other⟩, ⟨.num (some 14), .num none⟩]).targetTemperature = none)
  ∧ ((parseRawValues [⟨.num (some 13), .other⟩, ⟨.num (some 20), .str none⟩,
        ⟨.num (some 15), .other⟩, ⟨.num (some 14), .num none⟩]).fanSpeed = none)
  ∧ ((parseRawValues [⟨.num (some 13), .other⟩, ⟨.num (some 20), .str none⟩,
        ⟨.num (some 15), .other⟩, ⟨.num (some 14), .num none⟩]).modeId = none) := by
  refine ⟨?_, ?_, ?_, ?_⟩
  · exact (C10_decode_total_on_malformed _ .other rfl).1 (by decide)
  · exact (C10_decode_total_on_malformed _ (.str none) rfl).2.1 (by decide)
  · exact (C10_decode_total_on_malformed _ .other rfl).2.2.1 (by decide)
  · exact (C10_decode_total_on_malformed _ (.num none) rfl).2.2.2 (by decide)

/-- C1: refuted by the code — when the device id is absent from the
result of `getDevices`, the client throws a plain `BGHApiError`, and in
`normaliseError` the `instanceof BGHApiError` branch precedes the
`/not found/i` branch, so the error reaching the caller of the
service-layer `getDeviceStatus` is classified `UPSTREAM_ERROR`, not
`NOT_FOUND`.  The last conjunct shows the shadowed branch would have
classified the very same message as `NOT_FOUND`, evidencing the slip. -/
theorem C1_missing_device_not_classified_notfound :
    serviceErrorCode (serviceGetDeviceStatus [] 1 7) =
      some BghServiceErrorCode.UPSTREAM_ERROR
  ∧ serviceErrorCode (serviceGetDeviceStatus [] 1 7) ≠
      some BghServiceErrorCode.NOT_FOUND
  ∧ (normaliseError "retrieving device 7 status for home 1"
      (.otherError "Device 7 not found for home 1")).code =
      BghServiceErrorCode.NOT_FOUND := by
  refine ⟨rfl, by decide, by decide⟩

/-- C4: the orchestrator match predicate holds exactly when (a) the
payload mode has no defined vendor code or the snapshot mode code
equals it, (b) the payload fan matches the same way, and (c) the
snapshot target temperature is numeric and rounds to the same integer
as the requested value — a missing snapshot value never matches. -/
theorem C4_matchesExpected_characterisation (device : DeviceStatus)
    (payload : CommandPayload) :
    matchesExpected device payload = true ↔
      ((∀ m : Rat, tableLookup HVAC_MODES payload.mode = some m →
          device.modeId = some m)
      ∧ (∀ f : Rat, payload.fan.bind (tableLookup FAN_MODES) = some f →
          device.fanSpeed = some f)
      ∧ (∃ t : Rat, device.targetTemperature = some t ∧
          jsRound t = jsRound payload.targetTemperature)) := by
  cases hm : tableLookup HVAC_MODES payload.mode <;>
    cases hf : payload.fan.bind (tableLookup FAN_MODES) <;>
    cases ht : device.targetTemperature <;>
    simp [matchesExpected, hm, hf, ht, and_assoc]

/-- C6: a job whose `setMode` call fails produces a failed outcome with
zero attempts, and its vendor-call trace contains no `getDeviceStatus`
call at all — polling is skipped entirely. -/
theorem C6_setMode_failure_skips_polling (fetch : Nat → Option DeviceStatus)
    (payload : CommandPayload) :
    (runJob false fetch payload).1 = .failed .setModeFailed 0
  ∧ (∀ a : Nat, VendorCall.statusCall a ∉ (runJob false fetch payload).2) := by
  refine ⟨rfl, ?_⟩
  intro a
  simp [runJob]

/-- C7, counterexample: with the queue empty and no worker draining,
enqueueing a job returns `queuePosition = 0`, not the queue depth
including the newly appended job (which is 1): the synchronous part of
`processQueue` has already shifted the job off the queue before
`enqueueCommand` reads `queue.length`. -/
theorem C7_counterexample :
    (enqueueCommand ⟨[], false⟩ 1).2 = 0
  ∧ (enqueueCommand ⟨[], false⟩ 1).2 ≠ (([] : List Nat) ++ [1]).length := by
  exact ⟨rfl, by decide⟩

/-- C7, amended: when a worker is already draining the queue, the
returned `queuePosition` equals the queue depth at enqueue time
including the newly appended job; when the worker was idle, the head
job is dequeued synchronously before the position is read, so the
returned position is one less — the number of jobs still queued. -/
theorem C7_queuePosition (s : QueueState) (jobId : Nat) :
    (s.isProcessing = true → (enqueueCommand s jobId).2 = s.queue.length + 1)
  ∧ (s.isProcessing = false → (enqueueCommand s jobId).2 = s.queue.length) := by
  constructor <;> intro h
  · simp [enqueueCommand, h]
  · cases hq : s.queue <;> simp [enqueueCommand, h, hq]

theorem C7_queuePosition_witness :
    (enqueueCommand ⟨[5], true⟩ 9).2 = 2 ∧ (enqueueCommand ⟨[], false⟩ 9).2 = 0 := by
  exact ⟨(C7_queuePosition ⟨[5], true⟩ 9).1 rfl, (C7_queuePosition ⟨[], false⟩ 9).2 rfl⟩

/-- C8, counterexample: the login request is issued during construction
— a freshly constructed client that has performed no operation has
already issued one login post, refuting lazy creation on first use. -/
theorem C8_counterexample :
    clientTrace [] = [.loginPost] ∧ countLogins (clientTrace []) ≠ 0 := by
  exact ⟨rfl, by decide⟩

/-- C8, amended: the login is initiated eagerly at construction (not
lazily on first use) and its pending result is shared: across any
sequence of operations, exactly one login request is ever issued per
client instance, and it precedes every API request. -/
theorem C8_single_login (ops : List String) :
    countLogins (clientTrace ops) = 1
  ∧ clientTrace ops = .loginPost :: ops.map HttpRequest.apiPost := by
  have hflat : ops.flatMap postTrace = ops.map HttpRequest.apiPost := by
    induction ops with
    | nil => rfl
    | cons e es ih => simp [postTrace, ensureTokenTrace, ih]
  constructor
  · simp [countLogins, clientTrace, constructorTrace, loginTrace, hflat,
      List.countP_cons, List.countP_map, Function.comp]
  · simp [clientTrace, constructorTrace, loginTrace, hflat]

theorem mapLookup_upsert_self (m : DeviceStatusMap) (k : Option Rat) (v : DeviceStatus) :
    mapLookup (upsert m k v) k = some v := by
  induction m with
  | nil => simp [upsert, mapLookup]
  | cons kv rest ih =>
      obtain ⟨k0, v0⟩ := kv
      by_cases h : k0 = k
      · simp [upsert, h, mapLookup]
      · simp [upsert, h, mapLookup, ih]

theorem mapLookup_upsert_ne (m : DeviceStatusMap) (k k' : Option Rat) (v : DeviceStatus)
    (h : k' ≠ k) : mapLookup (upsert m k v) k' = mapLookup m k' := by
  induction m with
  | nil => simp [upsert, mapLookup, Ne.symm h]
  | cons kv rest ih =>
      obtain ⟨k0, v0⟩ := kv
      by_cases hk : k0 = k
      · subst hk
        simp [upsert, mapLookup, ih, Ne.symm h]
      · simp only [upsert, if_neg hk, mapLookup]
        split <;> simp [ih]

theorem length_upsert_of_lookup_none (m : DeviceStatusMap) (k : Option Rat)
    (v : DeviceStatus) (h : mapLookup m k = none) :
    (upsert m k v).length = m.length + 1 := by
  induction m with
  | nil => simp [upsert]
  | cons kv rest ih =>
      obtain ⟨k0, v0⟩ := kv
      by_cases hk : k0 = k
      · simp [mapLookup, hk] at h
      · simp only [mapLookup, if_neg hk] at h
        simp [upsert, hk, ih h]

theorem parseDevicesGo_lookup_not_mem :
    ∀ (eps : List (Option RawEndpoint)) (vgs : List (Option RawEndpointValueGroup))
      (ms : List (Option RawDevice)) (acc : DeviceStatusMap) (k : Option Rat),
      k ∉ numericEndpointIds eps →
      mapLookup (parseDevicesGo eps vgs ms acc) k = mapLookup acc k := by
  intro eps
  induction eps with
  | nil =>
      intro vgs ms acc k _
      simp [parseDevicesGo]
  | cons e es ih =>
      intro vgs ms acc k h
      have hes : k ∉ numericEndpointIds es := by
        intro hmem
        exact h (by
          simp only [numericEndpointIds, List.filterMap_cons]
          cases hentry : entryNumericId e <;>
            simp [numericEndpointIds] at hmem ⊢ <;> simp [hmem])
      cases e with
      | none =>
          simp only [parseDevicesGo]
          exact ih _ _ _ _ hes
      | some ep =>
          cases hid : ep.endpointID with
          | num i =>
              have hki : k ≠ i := by
                intro hk
                subst hk
                exact h (by
                  simp [numericEndpointIds, List.filterMap_cons, entryNumericId, hid])
              simp only [parseDevicesGo, hid]
              rw [ih _ _ _ _ hes]
              exact mapLookup_upsert_ne _ _ _ _ hki
          | str o =>
              simp only [parseDevicesGo, hid]
              exact ih _ _ _ _ hes
          | other =>
              simp only [parseDevicesGo, hid]
              exact ih _ _ _ _ hes

theorem parseDevicesGo_length :
    ∀ (eps : List (Option RawEndpoint)) (vgs : List (Option RawEndpointValueGroup))
      (ms : List (Option RawDevice)) (acc : DeviceStatusMap),
      (numericEndpointIds eps).Nodup →
      (∀ k ∈ numericEndpointIds eps, mapLookup acc k = none) →
      (parseDevicesGo eps vgs ms acc).length = acc.length + (numericEndpointIds eps).length := by
  intro eps
  induction eps with
  | nil =>
      intro vgs ms acc _ _
      simp [parseDevicesGo, numericEndpointIds]
  | cons e es ih =>
      intro vgs ms acc hnd hacc
      cases e with
      | none =>
          have hids : numericEndpointIds (none :: es) = numericEndpointIds es := by
            simp [numericEndpointIds, List.filterMap_cons, entryNumericId]
          rw [hids] at hnd hacc
          simp only [parseDevicesGo]
          rw [ih _ _ _ hnd hacc, hids]
      | some ep =>
          cases hid : ep.endpointID with
          | num i =>
              have hids : numericEndpointIds (some ep :: es) = i :: numericEndpointIds es := by
                simp [numericEndpointIds, List.filterMap_cons, entryNumericId, hid]
              rw [hids] at hnd hacc
              obtain ⟨hnotmem, hnd2⟩ := List.nodup_cons.mp hnd
              have hacci : mapLookup acc i = none := hacc i (List.mem_cons_self _ _)
              have hacc2 : ∀ (d : DeviceStatus), ∀ k ∈ numericEndpointIds es,
                  mapLookup (upsert acc i d) k = none := by
                intro d k hk
                have hki : k ≠ i := fun hh => hnotmem (hh ▸ hk)
                rw [mapLookup_upsert_ne _ _ _ _ hki]
                exact hacc k (List.mem_cons_of_mem _ hk)
              simp only [parseDevicesGo, hid]
              rw [ih _ _ _ hnd2 (hacc2 _), length_upsert_of_lookup_none _ _ _ hacci, hids]
              simp only [List.length_cons]
              omega
          | str o =>
              have hids : numericEndpointIds (some ep :: es) = numericEndpointIds es := by
                simp [numericEndpointIds, List.filterMap_cons, entryNumericId, hid]
              rw [hids] at hnd hacc
              simp only [parseDevicesGo, hid]
              rw [ih _ _ _ hnd hacc, hids]
          | other =>
              have hids : numericEndpointIds (some ep :: es) = numericEndpointIds es := by
                simp [numericEndpointIds, List.filterMap_cons, entryNumericId, hid]
              rw [hids] at hnd hacc
              simp only [parseDevicesGo, hid]
              rw [ih _ _ _ hnd hacc, hids]

theorem listTailGetElem {α : Type} (l : List α) (i : Nat) : l.tail[i]? = l[i + 1]? := by
  cases l <;> simp

theorem parseDevicesGo_lookup_at :
    ∀ (eps : List (Option RawEndpoint)) (vgs : List (Option RawEndpointValueGroup))
      (ms : List (Option RawDevice)) (acc : DeviceStatusMap) (i : Nat)
      (ep : RawEndpoint) (eid : Option Rat),
      (numericEndpointIds eps).Nodup →
      eps[i]? = some (some ep) → ep.endpointID = .num eid →
      mapLookup (parseDevicesGo eps vgs ms acc) eid =
        some (deviceFromParts eid ep (vgs[i]?.join) (ms[i]?.join)) := by
  intro eps
  induction eps with
  | nil =>
      intro vgs ms acc i ep eid _ hi _
      simp at hi
  | cons e es ih =>
      intro vgs ms acc i ep eid hnd hi hid
      cases i with
      | zero =>
          rw [List.getElem?_cons_zero] at hi
          have he : e = some ep := Option.some.inj hi
          subst he
          have hids : numericEndpointIds (some ep :: es) = eid :: numericEndpointIds es := by
            simp [numericEndpointIds, List.filterMap_cons, entryNumericId, hid]
          rw [hids] at hnd
          obtain ⟨hnotmem, _⟩ := List.nodup_cons.mp hnd
          simp only [parseDevicesGo, hid]
          rw [parseDevicesGo_lookup_not_mem es _ _ _ eid hnotmem, mapLookup_upsert_self,
            List.head?_eq_getElem?, List.head?_eq_getElem?]
      | succ i2 =>
          rw [List.getElem?_cons_succ] at hi
          rw [← listTailGetElem vgs i2, ← listTailGetElem ms i2]
          cases e with
          | none =>
              have hids : numericEndpointIds (none :: es) = numericEndpointIds es := by
                simp [numericEndpointIds, List.filterMap_cons, entryNumericId]
              rw [hids] at hnd
              simp only [parseDevicesGo]
              exact ih _ _ _ i2 ep eid hnd hi hid
          | some ep2 =>
              cases hid2 : ep2.endpointID with
              | num j =>
                  have hids : numericEndpointIds (some ep2 :: es) =
                      j :: numericEndpointIds es := by
                    simp [numericEndpointIds, List.filterMap_cons, entryNumericId, hid2]
                  rw [hids] at hnd
                  obtain ⟨_, hnd2⟩ := List.nodup_cons.mp hnd
                  simp only [parseDevicesGo, hid2]
                  exact ih _ _ _ i2 ep eid hnd2 hi hid
              | str o =>
                  have hids : numericEndpointIds (some ep2 :: es) = numericEndpointIds es := by
                    simp [numericEndpointIds, List.filterMap_cons, entryNumericId, hid2]
                  rw [hids] at hnd
                  simp only [parseDevicesGo, hid2]
                  exact ih _ _ _ i2 ep eid hnd hi hid
              | other =>
                  have hids : numericEndpointIds (some ep2 :: es) = numericEndpointIds es := by
                    simp [numericEndpointIds, List.filterMap_cons, entryNumericId, hid2]
                  rw [hids] at hnd
                  simp only [parseDevicesGo, hid2]
                  exact ih _ _ _ i2 ep eid hnd hi hid

/-- C3, counterexample: two endpoints sharing the numeric `EndpointID` 1
collapse into a single map entry, so `getDevices` does not return one
snapshot per endpoint bearing a numeric identifier, and the number of
entries differs from the number of endpoints with a numeric id. -/
theorem C3_counterexample :
    (parseDevices [some ⟨.num (some 1), none⟩, some ⟨.num (some 1), none⟩] [] []).length = 1
  ∧ (numericEndpointIds [some ⟨.num (some 1), none⟩, some ⟨.num (some 1), none⟩]).length = 2
  ∧ (parseDevices [some ⟨.num (some 1), none⟩, some ⟨.num (some 1), none⟩] [] []).length ≠
      (numericEndpointIds [some ⟨.num (some 1), none⟩, some ⟨.num (some 1), none⟩]).length := by
  refine ⟨rfl, rfl, by decide⟩

/-- C3, amended: provided the numeric `EndpointID`s are pairwise
distinct, `getDevices` returns exactly one snapshot per endpoint
bearing a numeric identifier and zero for entries missing one — the
entry count equals the count of numeric ids — and the snapshot stored
under the Nth numeric id is built from the Nth endpoint, the Nth
value-group and the Nth metadata entry.  (Duplicate numeric ids
collapse: later entries overwrite earlier ones in the returned
object.) -/
theorem C3_parseDevices_positional (endpoints : List (Option RawEndpoint))
    (endpointValues : List (Option RawEndpointValueGroup))
    (devicesMeta : List (Option RawDevice))
    (h : (numericEndpointIds endpoints).Nodup) :
    (parseDevices endpoints endpointValues devicesMeta).length =
      (numericEndpointIds endpoints).length
  ∧ ∀ (i : Nat) (ep : RawEndpoint) (eid : Option Rat),
      endpoints[i]? = some (some ep) → ep.endpointID = .num eid →
      mapLookup (parseDevices endpoints endpointValues devicesMeta) eid =
        some (deviceFromParts eid ep (endpointValues[i]?.join) (devicesMeta[i]?.join)) := by
  constructor
  · have := parseDevicesGo_length endpoints endpointValues devicesMeta [] h
      (fun k _ => rfl)
    simpa [parseDevices] using this
  · intro i ep eid hi hid
    exact parseDevicesGo_lookup_at endpoints endpointValues devicesMeta [] i ep eid h hi hid

theorem C3_parseDevices_positional_witness :
    (parseDevices
        [some ⟨.num (some 7), some "AC"⟩, none, some ⟨.other, none⟩,
         some ⟨.num (some 9), none⟩]
        [some ⟨some [some ⟨.num (some 20), .num (some 21)⟩]⟩]
        [some ⟨some "modelA", none⟩]).length = 2
  ∧ mapLookup (parseDevices
        [some ⟨.num (some 7), some "AC"⟩, none, some ⟨.other, none⟩,
         some ⟨.num (some 9), none⟩]
        [some ⟨some [some ⟨.num (some 20), .num (some 21)⟩]⟩]
        [some ⟨some "modelA", none⟩]) (some 7) =
      some (deviceFromParts (some 7) ⟨.num (some 7), some "AC"⟩
        (some ⟨some [some ⟨.num (some 20), .num (some 21)⟩]⟩)
        (some ⟨some "modelA", none⟩)) := by
  constructor
  · exact (C3_parseDevices_positional _ _ _ (by decide)).1.trans (by decide)
  · exact ((C3_parseDevices_positional _ _ _ (by decide)).2 0 ⟨.num (some 7), some "AC"⟩
      (some 7) rfl rfl).trans (by decide)

theorem lastOr_cons (ld : Option DeviceStatus) (d : DeviceStatus) (xs : List DeviceStatus) :
    lastOr ld (d :: xs) = lastOr (some d) xs := by
  cases xs with
  | nil => simp [lastOr]
  | cons x xs2 =>
      simp only [lastOr, List.getLast?_cons_cons]
      cases hgl : (x :: xs2).getLast? with
      | none => exact absurd (List.getLast?_eq_none_iff.mp hgl) (by simp)
      | some y => rfl

theorem pollLoop_all_none (fetch : Nat → Option DeviceStatus) (payload : CommandPayload) :
    ∀ (n attempt : Nat) (ld : Option DeviceStatus),
      attempt + n = MAX_ATTEMPTS + 1 →
      (∀ k, attempt ≤ k → k ≤ MAX_ATTEMPTS → fetch k = none) →
      (pollLoop fetch payload attempt ld).1 = lastResult ld := by
  intro n
  induction n with
  | zero =>
      intro attempt ld hsum _
      rw [pollLoop.eq_def, dif_neg (by omega)]
  | succ m ih =>
      intro attempt ld hsum hnone
      have hle : attempt ≤ MAX_ATTEMPTS := by omega
      rw [pollLoop.eq_def, dif_pos hle, hnone attempt le_rfl hle]
      exact ih (attempt + 1) ld (by omega) (fun k h1 h2 => hnone k (by omega) h2)

theorem pollLoop_no_match (fetch : Nat → Option DeviceStatus) (payload : CommandPayload) :
    ∀ (n attempt : Nat) (ld : Option DeviceStatus),
      attempt + n = MAX_ATTEMPTS + 1 →
      (∀ k d, attempt ≤ k → k ≤ MAX_ATTEMPTS → fetch k = some d →
        matchesExpected d payload = false) →
      (pollLoop fetch payload attempt ld).1 =
        lastResult (lastOr ld (obtainedFrom fetch attempt)) := by
  intro n
  induction n with
  | zero =>
      intro attempt ld hsum _
      have hzero : MAX_ATTEMPTS + 1 - attempt = 0 := by omega
      have hobt : obtainedFrom fetch attempt = [] := by
        simp [obtainedFrom, hzero]
      rw [pollLoop.eq_def, dif_neg (by omega), hobt]
      cases ld <;> simp [lastOr]
  | succ m ih =>
      intro attempt ld hsum hno
      have hle : attempt ≤ MAX_ATTEMPTS := by omega
      have hrange : MAX_ATTEMPTS + 1 - attempt = (MAX_ATTEMPTS - attempt) + 1 := by omega
      have hrange2 : MAX_ATTEMPTS + 1 - (attempt + 1) = MAX_ATTEMPTS - attempt := by omega
      have hcons : List.range' attempt (MAX_ATTEMPTS + 1 - attempt) =
          attempt :: List.range' (attempt + 1) (MAX_ATTEMPTS - attempt) := by
        rw [hrange, List.range'_succ]
      rw [pollLoop.eq_def, dif_pos hle]
      cases hf : fetch attempt with
      | none =>
          have hobt : obtainedFrom fetch attempt = obtainedFrom fetch (attempt + 1) := by
            simp [obtainedFrom, hcons, hrange2, List.filterMap_cons, hf]
          rw [hobt]
          exact ih (attempt + 1) ld (by omega)
            (fun k d h1 h2 h3 => hno k d (by omega) h2 h3)
      | some d =>
          have hm : matchesExpected d payload = false := hno attempt d le_rfl hle hf
          simp only [hm, Bool.false_eq_true, if_false]
          have hobt : obtainedFrom fetch attempt = d :: obtainedFrom fetch (attempt + 1) := by
            simp [obtainedFrom, hcons, hrange2, List.filterMap_cons, hf]
          rw [hobt, lastOr_cons]
          exact ih (attempt + 1) (some d) (by omega)
            (fun k d2 h1 h2 h3 => hno k d2 (by omega) h2 h3)

theorem pollLoop_first_match (fetch : Nat → Option DeviceStatus) (payload : CommandPayload)
    (k : Nat) (d : DeviceStatus) (hk6 : k ≤ MAX_ATTEMPTS) (hfk : fetch k = some d)
    (hm : matchesExpected d payload = true) :
    ∀ (n attempt : Nat) (ld : Option DeviceStatus),
      attempt + n = k →
      (∀ j d2, attempt ≤ j → j < k → fetch j = some d2 →
        matchesExpected d2 payload = false) →
      (pollLoop fetch payload attempt ld).1 = .ok d k := by
  intro n
  induction n with
  | zero =>
      intro attempt ld hsum _
      have hak : attempt = k := by omega
      subst hak
      rw [pollLoop.eq_def, dif_pos hk6, hfk]
      simp [hm]
  | succ m ih =>
      intro attempt ld hsum hfirst
      have hle : attempt ≤ MAX_ATTEMPTS := by omega
      rw [pollLoop.eq_def, dif_pos hle]
      cases hf : fetch attempt with
      | none =>
          exact ih (attempt + 1) ld (by omega)
            (fun j d2 h1 h2 h3 => hfirst j d2 (by omega) h2 h3)
      | some d2 =>
          have hm2 : matchesExpected d2 payload = false :=
            hfirst attempt d2 le_rfl (by omega) hf
          simp only [hm2, Bool.false_eq_true, if_false]
          exact ih (attempt + 1) (some d2) (by omega)
            (fun j d3 h1 h2 h3 => hfirst j d3 (by omega) h2 h3)

theorem runJob_true_fst (fetch : Nat → Option DeviceStatus) (payload : CommandPayload) :
    (runJob true fetch payload).1 =
      (match (pollForStatus fetch payload).1 with
       | .ok device attempts => .completed device attempts
       | .statusUnavailable => .failed .statusUnavailable 0) := by
  simp only [runJob, if_true]
  rcases h : pollForStatus fetch payload with ⟨r, t⟩
  cases r <;> simp

theorem lastOr_none (xs : List DeviceStatus) : lastOr none xs = xs.getLast? := by
  cases h : xs.getLast? <;> simp [lastOr, h]

/-- C5: for a job whose `setMode` succeeded, the polling outcome is the
stated disjunction — every fetch failing makes the job fail with the
dedicated status-unavailable error; snapshots obtained but never
matching make the job complete with the last-seen snapshot after all
`MAX_ATTEMPTS` attempts; and a first match at attempt `k` makes the job
complete with that snapshot and attempt count `k`. -/
theorem C5_poll_outcome_disjunction (fetch : Nat → Option DeviceStatus)
    (payload : CommandPayload) :
    ((∀ k, 1 ≤ k → k ≤ MAX_ATTEMPTS → fetch k = none) →
        (runJob true fetch payload).1 = .failed .statusUnavailable 0)
  ∧ ((∀ k d, 1 ≤ k → k ≤ MAX_ATTEMPTS → fetch k = some d →
        matchesExpected d payload = false) →
      ∀ d, lastSnapshot fetch = some d →
        (runJob true fetch payload).1 = .completed d MAX_ATTEMPTS)
  ∧ (∀ k d, 1 ≤ k → k ≤ MAX_ATTEMPTS → fetch k = some d →
        matchesExpected d payload = true →
        (∀ j d2, 1 ≤ j → j < k → fetch j = some d2 →
          matchesExpected d2 payload = false) →
        (runJob true fetch payload).1 = .completed d k) := by
  refine ⟨?_, ?_, ?_⟩
  · intro hnone
    have h1 : (pollLoop fetch payload 1 none).1 = lastResult none :=
      pollLoop_all_none fetch payload MAX_ATTEMPTS 1 none (by omega) hnone
    rw [runJob_true_fst, show (pollForStatus fetch payload).1 = PollResult.statusUnavailable
      from h1]
  · intro hno d hd
    have h1 : (pollLoop fetch payload 1 none).1 =
        lastResult (lastOr none (obtainedFrom fetch 1)) :=
      pollLoop_no_match fetch payload MAX_ATTEMPTS 1 none (by omega) hno
    have h2 : obtainedFrom fetch 1 = (List.range' 1 MAX_ATTEMPTS).filterMap fetch := rfl
    rw [lastOr_none, h2] at h1
    have h3 : (pollForStatus fetch payload).1 = PollResult.ok d MAX_ATTEMPTS := by
      rw [show (pollForStatus fetch payload).1 = (pollLoop fetch payload 1 none).1 from rfl,
        h1, show ((List.range' 1 MAX_ATTEMPTS).filterMap fetch).getLast? = lastSnapshot fetch
          from rfl, hd]
      rfl
    rw [runJob_true_fst, h3]
  · intro k d hk1 hk6 hfk hm hfirst
    have h1 : (pollLoop fetch payload 1 none).1 = PollResult.ok d k :=
      pollLoop_first_match fetch payload k d hk6 hfk hm (k - 1) 1 none (by omega)
        (fun j d2 hj1 hj2 hf => hfirst j d2 hj1 hj2 hf)
    rw [runJob_true_fst, show (pollForStatus fetch payload).1 = PollResult.ok d k from h1]

theorem C5_poll_outcome_disjunction_witness :
    ((runJob true (fun _ => none) demoPayload).1 =
        .failed .statusUnavailable 0)
  ∧ ((runJob true (fun _ => some demoStale) demoPayload).1 =
        .completed demoStale 6)
  ∧ ((runJob true (fun k => if k = 2 then some demoMatching else none) demoPayload).1 =
        .completed demoMatching 2) := by
  refine ⟨?_, ?_, ?_⟩
  · exact (C5_poll_outcome_disjunction _ demoPayload).1 (fun k _ _ => rfl)
  · exact (C5_poll_outcome_disjunction _ demoPayload).2.1
      (fun k d _ _ hfd => by
        injection hfd with h
        subst h
        decide)
      demoStale (by decide)
  · exact (C5_poll_outcome_disjunction _ demoPayload).2.2 2 demoMatching (by decide)
      (by decide) rfl (by decide)
      (fun j d2 h1 h2 hf => by
        have hj : j = 1 := by omega
        subst hj
        simp at hf)

theorem broadcastGo_spec :
    ∀ (rest kept : List SSEClient) (hb es received : List Nat),
      ((kept ++ rest).map SSEClient.id).Nodup →
      broadcastGo ⟨kept ++ rest, hb, es⟩ rest received =
        (⟨kept ++ rest.filter (fun c => !c.writeFails),
          hb ++ (rest.filter (fun c => c.writeFails)).map SSEClient.id,
          es ++ (rest.filter (fun c => c.writeFails)).map SSEClient.id⟩,
         received ++ (rest.filter (fun c => !c.writeFails)).map SSEClient.id) := by
  intro rest
  induction rest with
  | nil =>
      intro kept hb es received _
      simp [broadcastGo]
  | cons c cs ih =>
      intro kept hb es received hnd
      simp only [broadcastGo]
      cases hw : c.writeFails with
      | true =>
          have hkept : ∀ b ∈ kept, ¬((fun x => x.id == c.id) b = true) := by
            intro b hbk hbeq
            have hne : b.id = c.id := by simpa using hbeq
            have hmem1 : c.id ∈ kept.map SSEClient.id :=
              hne ▸ List.mem_map_of_mem _ hbk
            have hnd2 := hnd
            rw [List.map_append] at hnd2
            exact (List.nodup_append.mp hnd2).2.2 hmem1 (by simp)
          have hfind : (kept ++ c :: cs).find? (fun x => x.id == c.id) ≠ none := by
            intro hfn
            have := List.find?_eq_none.mp hfn c (by simp)
            simp at this
          have hrem : removeClient ⟨kept ++ c :: cs, hb, es⟩ c.id =
              ⟨kept ++ cs, hb ++ [c.id], es ++ [c.id]⟩ := by
            simp only [removeClient]
            cases hf : (kept ++ c :: cs).find? (fun x => x.id == c.id) with
            | none => exact absurd hf hfind
            | some x =>
                have herase : (kept ++ c :: cs).eraseP (fun x => x.id == c.id) =
                    kept ++ cs := by
                  rw [List.eraseP_append_right _ hkept]
                  simp
                simp [herase]
          have hsub : List.Sublist (kept ++ cs) (kept ++ c :: cs) :=
            (List.sublist_cons_self c cs).append_left kept
          have hnd3 : ((kept ++ cs).map SSEClient.id).Nodup :=
            hnd.sublist (hsub.map _)
          rw [if_pos rfl, hrem, ih kept (hb ++ [c.id]) (es ++ [c.id]) received hnd3]
          simp [List.filter_cons, hw, List.append_assoc]
      | false =>
          rw [if_neg (by simp)]
          have hnd4 : (((kept ++ [c]) ++ cs).map SSEClient.id).Nodup := by
            simpa using hnd
          have hstate : (⟨kept ++ c :: cs, hb, es⟩ : StreamState) =
              ⟨(kept ++ [c]) ++ cs, hb, es⟩ := by simp
          rw [hstate, ih (kept ++ [c]) hb es (received ++ [c.id]) hnd4]
          simp [List.filter_cons, hw, List.append_assoc]

/-- C9: publishing an event removes exactly the subscribers whose write
fails — each has its heartbeat cancelled and its stream close attempted
(close errors suppressed) — while every other registered subscriber
receives the event; `count()` afterwards reflects the reduced registry.
Publish itself is a total function here because every failure branch of
the source is caught, so it never raises to its caller. -/
theorem C9_publish_partial_failure (s : StreamState)
    (h : (s.clients.map SSEClient.id).Nodup) :
    (broadcastEvent s).1.clients = s.clients.filter (fun c => !c.writeFails)
  ∧ (broadcastEvent s).2 = (s.clients.filter (fun c => !c.writeFails)).map SSEClient.id
  ∧ (broadcastEvent s).1.cancelledHeartbeats =
      s.cancelledHeartbeats ++ (s.clients.filter (fun c => c.writeFails)).map SSEClient.id
  ∧ (broadcastEvent s).1.endedStreams =
      s.endedStreams ++ (s.clients.filter (fun c => c.writeFails)).map SSEClient.id
  ∧ connectedClients (broadcastEvent s).1 =
      (s.clients.filter (fun c => !c.writeFails)).length := by
  rcases s with ⟨cl, hb, es⟩
  have hspec := broadcastGo_spec cl [] hb es [] (by simpa using h)
  simp only [List.nil_append] at hspec
  simp only [broadcastEvent, connectedClients]
  rw [hspec]
  simp

theorem C9_publish_partial_failure_witness :
    ((demoStream.clients.map SSEClient.id).Nodup)
  ∧ (broadcastEvent demoStream).2 = [1, 3]
  ∧ (broadcastEvent demoStream).1.clients.map SSEClient.id = [1, 3]
  ∧ (broadcastEvent demoStream).1.cancelledHeartbeats = [2]
  ∧ (broadcastEvent demoStream).1.endedStreams = [2]
  ∧ connectedClients (broadcastEvent demoStream).1 = 2 := by
  refine ⟨by decide, ?_, ?_, ?_, ?_, ?_⟩
  · exact ((C9_publish_partial_failure demoStream (by decide)).2.1).trans (by decide)
  · exact congrArg (List.map SSEClient.id)
      ((C9_publish_partial_failure demoStream (by decide)).1) |>.trans (by decide)
  · exact ((C9_publish_partial_failure demoStream (by decide)).2.2.1).trans (by decide)
  · exact ((C9_publish_partial_failure demoStream (by decide)).2.2.2.1).trans (by decide)
  · exact ((C9_publish_partial_failure demoStream (by decide)).2.2.2.2).trans (by decide)
